import Mathlib

/-!
# Verification of the CHIP-8 execution engine

A shallow embedding of the CHIP-8 virtual machine from `src/instruction.rs`,
`src/interpreter.rs` and the engine-facing parts of `src/window.rs`.

Conventions of the embedding:
* Rust `u8`/`u16`/`u64` values are represented as `Nat` with wrapping
  performed explicitly (`% 256`, `% 2 ^ 64`, …) exactly where the Rust code
  wraps.
* Fallible operations return `Option`/`Except`.  A Rust panic (out-of-bounds
  slice or index, integer overflow in debug mode) is modelled as `none`.
* Rust `match` expressions over tuples of nibbles with literal patterns are
  rendered as the equivalent chain of first-match equality tests, preserving
  the arm order of the source exactly.
* The SDL window, keyboard, random number generator and wall clock are
  external collaborators; they are modelled by oracle functions stored in the
  machine state (`keys`, `waitKeys`, `rands`, `ticks`) together with counters
  recording how far each oracle stream has been consumed.  Queued draw
  commands are counted in `draws`.
-/

namespace Chip8Emu

/-- Register index nibbles extracted with `& 0xF` are always below 16. -/
theorem and15_lt (n : Nat) : n &&& 15 < 16 :=
  Nat.lt_succ_of_le Nat.and_le_right

/-- The 35 instruction variants of `src/instruction.rs`.  Register indices are
carried as `Fin 16`: the decoder only ever builds them from single nibbles, so
the index is below 16 by construction (Rust stores them as `u8` and would
panic on an out-of-range array access, which can never happen through the
decoder). -/
inductive Instruction where
  /-- Jump to a machine code routine at `addr` (legacy `0nnn`). -/
  | Sys (addr : Nat)
  /-- Clear the display (`00E0`). -/
  | Cls
  /-- Return from a subroutine (`00EE`). -/
  | Ret
  /-- Jump to location `addr` (`1nnn`). -/
  | JpAddr (addr : Nat)
  /-- Call subroutine at `addr` (`2nnn`). -/
  | Call (addr : Nat)
  /-- Skip next instruction if `Vx = kk` (`3xkk`). -/
  | SeVxByte (x : Fin 16) (kk : Nat)
  /-- Skip next instruction if `Vx ≠ kk` (`4xkk`). -/
  | SneVxByte (x : Fin 16) (kk : Nat)
  /-- Skip next instruction if `Vx = Vy` (`5xy0`). -/
  | SeVxVy (x y : Fin 16)
  /-- Set `Vx = kk` (`6xkk`). -/
  | LdVxByte (x : Fin 16) (kk : Nat)
  /-- Set `Vx = Vx + kk` (`7xkk`). -/
  | AddVxByte (x : Fin 16) (kk : Nat)
  /-- Set `Vx = Vy` (`8xy0`). -/
  | LdVxVy (x y : Fin 16)
  /-- Set `Vx = Vx OR Vy` (`8xy1`). -/
  | Or (x y : Fin 16)
  /-- Set `Vx = Vx AND Vy` (`8xy2`). -/
  | And (x y : Fin 16)
  /-- Set `Vx = Vx XOR Vy` (`8xy3`). -/
  | Xor (x y : Fin 16)
  /-- Set `Vx = Vx + Vy`, `VF` = carry (`8xy4`). -/
  | AddVxVy (x y : Fin 16)
  /-- Set `Vx = Vx - Vy`, `VF` = NOT borrow (`8xy5`). -/
  | Sub (x y : Fin 16)
  /-- Shift right (`8xy6`). -/
  | Shr (x y : Fin 16)
  /-- Set `Vx = Vy - Vx`, `VF` = NOT borrow (`8xy7`). -/
  | Subn (x y : Fin 16)
  /-- Shift left (`8xyE`). -/
  | Shl (x y : Fin 16)
  /-- Skip next instruction if `Vx ≠ Vy` (`9xy0`). -/
  | SneVxVy (x y : Fin 16)
  /-- Set `I = addr` (`Annn`). -/
  | LdIAddr (addr : Nat)
  /-- Jump to `addr + V0` (`Bnnn`). -/
  | JpV0Addr (addr : Nat)
  /-- Set `Vx = random byte AND kk` (`Cxkk`). -/
  | Rnd (x : Fin 16) (kk : Nat)
  /-- Display an `n`-byte sprite at `(Vx, Vy)` (`Dxyn`). -/
  | Drw (x y : Fin 16) (n : Nat)
  /-- Skip next instruction if key `Vx` is pressed (`Ex9E`). -/
  | Skp (x : Fin 16)
  /-- Skip next instruction if key `Vx` is not pressed (`ExA1`). -/
  | Sknp (x : Fin 16)
  /-- Set `Vx` = delay timer (`Fx07`). -/
  | LdVxDt (x : Fin 16)
  /-- Wait for a key press, store it in `Vx` (`Fx0A`). -/
  | LdVxK (x : Fin 16)
  /-- Set delay timer = `Vx` (`Fx15`). -/
  | LdDtVx (x : Fin 16)
  /-- Set sound timer = `Vx` (`Fx18`). -/
  | LdStVx (x : Fin 16)
  /-- Set `I = I + Vx` (`Fx1E`). -/
  | AddIVx (x : Fin 16)
  /-- Set `I` to the font sprite of digit `Vx` (`Fx29`). -/
  | LdFVx (x : Fin 16)
  /-- Store the BCD representation of `Vx` at `I`, `I+1`, `I+2` (`Fx33`). -/
  | LdBVx (x : Fin 16)
  /-- Store `V0` through `Vx` in memory starting at `I` (`Fx55`). -/
  | LdIVx (x : Fin 16)
  /-- Read `V0` through `Vx` from memory starting at `I` (`Fx65`). -/
  | LdVxI (x : Fin 16)
deriving DecidableEq

/-- One hexadecimal digit, uppercase (`0`–`9`, `A`–`F`), as produced by Rust's
`{:X}` formatting. -/
def hexDigitChar (n : Nat) : Char :=
  if n < 10 then Char.ofNat (48 + n) else Char.ofNat (55 + n)

/-- Uppercase hexadecimal digits of `n`, most significant first (empty for 0). -/
def hexChars (n : Nat) : List Char :=
  if h : n = 0 then []
  else hexChars (n / 16) ++ [hexDigitChar (n % 16)]
termination_by n
decreasing_by exact Nat.div_lt_self (Nat.pos_of_ne_zero h) (by omega)

/-- Rust's `format!("{n:02X}")`: uppercase hexadecimal, zero-padded to at
least two digits. -/
def formatHex02 (n : Nat) : String :=
  let ds := if n = 0 then ['0'] else hexChars n
  ⟨List.replicate (2 - ds.length) '0' ++ ds⟩

/-- The decode-failure message `format!("Failed to parse instruction {value:02X}")`
from `TryFrom<u16> for Instruction`. -/
def parseErrMsg (value : Nat) : String :=
  "Failed to parse instruction " ++ formatHex02 value

/-- The decoder `TryFrom<u16> for Instruction` (`src/instruction.rs`): split
the 16-bit word into four nibbles `(i3, i2, i1, i0)` (most significant first)
and match against the opcode table in source order; an unmatched word
produces the decode-error string.  The Rust tuple `match` with literal
patterns is written as the equivalent chain of first-match tests. -/
def decode (value : Nat) : Except String Instruction :=
  let i3 := (value >>> 12) &&& 0xF
  let i2 := (value >>> 8) &&& 0xF
  let i1 := (value >>> 4) &&& 0xF
  let i0 := value &&& 0xF
  -- `let address = |x, y, k| (x << 8) | (y << 4) | k`
  let address := (i2 <<< 8) ||| (i1 <<< 4) ||| i0
  -- `let byte = |y, k| ((y << 4) | k) as u8` (< 256 already, the cast is a no-op)
  let byte := (i1 <<< 4) ||| i0
  let rx : Fin 16 := ⟨i2, and15_lt _⟩
  let ry : Fin 16 := ⟨i1, and15_lt _⟩
  if i3 = 0x0 ∧ i2 = 0x0 ∧ i1 = 0xE ∧ i0 = 0x0 then .ok .Cls
  else if i3 = 0x0 ∧ i2 = 0x0 ∧ i1 = 0xE ∧ i0 = 0xE then .ok .Ret
  else if i3 = 0x0 then .ok (.Sys address)
  else if i3 = 0x1 then .ok (.JpAddr address)
  else if i3 = 0x2 then .ok (.Call address)
  else if i3 = 0x3 then .ok (.SeVxByte rx byte)
  else if i3 = 0x4 then .ok (.SneVxByte rx byte)
  else if i3 = 0x5 ∧ i0 = 0 then .ok (.SeVxVy rx ry)
  else if i3 = 0x6 then .ok (.LdVxByte rx byte)
  else if i3 = 0x7 then .ok (.AddVxByte rx byte)
  else if i3 = 0x8 ∧ i0 = 0x0 then .ok (.LdVxVy rx ry)
  else if i3 = 0x8 ∧ i0 = 0x1 then .ok (.Or rx ry)
  else if i3 = 0x8 ∧ i0 = 0x2 then .ok (.And rx ry)
  else if i3 = 0x8 ∧ i0 = 0x3 then .ok (.Xor rx ry)
  else if i3 = 0x8 ∧ i0 = 0x4 then .ok (.AddVxVy rx ry)
  else if i3 = 0x8 ∧ i0 = 0x5 then .ok (.Sub rx ry)
  else if i3 = 0x8 ∧ i0 = 0x6 then .ok (.Shr rx ry)
  else if i3 = 0x8 ∧ i0 = 0x7 then .ok (.Subn rx ry)
  else if i3 = 0x8 ∧ i0 = 0xE then .ok (.Shl rx ry)
  else if i3 = 0x9 ∧ i0 = 0x0 then .ok (.SneVxVy rx ry)
  else if i3 = 0xA then .ok (.LdIAddr address)
  else if i3 = 0xB then .ok (.JpV0Addr address)
  else if i3 = 0xC then .ok (.Rnd rx byte)
  else if i3 = 0xD then .ok (.Drw rx ry i0)
  else if i3 = 0xE ∧ i1 = 0x9 ∧ i0 = 0xE then .ok (.Skp rx)
  else if i3 = 0xE ∧ i1 = 0xA ∧ i0 = 0x1 then .ok (.Sknp rx)
  else if i3 = 0xF ∧ i1 = 0x0 ∧ i0 = 0x7 then .ok (.LdVxDt rx)
  else if i3 = 0xF ∧ i1 = 0x0 ∧ i0 = 0xA then .ok (.LdVxK rx)
  else if i3 = 0xF ∧ i1 = 0x1 ∧ i0 = 0x5 then .ok (.LdDtVx rx)
  else if i3 = 0xF ∧ i1 = 0x1 ∧ i0 = 0x8 then .ok (.LdStVx rx)
  else if i3 = 0xF ∧ i1 = 0x1 ∧ i0 = 0xE then .ok (.AddIVx rx)
  else if i3 = 0xF ∧ i1 = 0x2 ∧ i0 = 0x9 then .ok (.LdFVx rx)
  else if i3 = 0xF ∧ i1 = 0x3 ∧ i0 = 0x3 then .ok (.LdBVx rx)
  else if i3 = 0xF ∧ i1 = 0x5 ∧ i0 = 0x5 then .ok (.LdIVx rx)
  else if i3 = 0xF ∧ i1 = 0x6 ∧ i0 = 0x5 then .ok (.LdVxI rx)
  else .error (parseErrMsg value)

/-- The decoder contract transcribed from the SPEC's words (§4.1 and the
claim): a fixed 35-variant nibble-pattern table; a 12-bit address from
nibbles 2–4 (`value mod 4096`), an 8-bit immediate from nibbles 3–4
(`value mod 256`), register indices from single nibbles; `0x00E0` decodes to
Clear and `0x00EE` to Return before the legacy system-call fallback; the
`5`/`8`/`9` families additionally select on the low nibble, the `E`/`F`
families on the low byte; every unmatched word yields the decode error
identifying the offending value.  This definition exists only to be compared
with `decode`, which is translated from the source. -/
def specDecodeTable (v : Nat) : Except String Instruction :=
  let addr := v % 4096
  let imm := v % 256
  let x : Fin 16 := ⟨v / 256 % 16, by omega⟩
  let y : Fin 16 := ⟨v / 16 % 16, by omega⟩
  if v = 0x00E0 then .ok .Cls
  else if v = 0x00EE then .ok .Ret
  else if v / 4096 % 16 = 0x0 then .ok (.Sys addr)
  else if v / 4096 % 16 = 0x1 then .ok (.JpAddr addr)
  else if v / 4096 % 16 = 0x2 then .ok (.Call addr)
  else if v / 4096 % 16 = 0x3 then .ok (.SeVxByte x imm)
  else if v / 4096 % 16 = 0x4 then .ok (.SneVxByte x imm)
  else if v / 4096 % 16 = 0x5 ∧ v % 16 = 0 then .ok (.SeVxVy x y)
  else if v / 4096 % 16 = 0x6 then .ok (.LdVxByte x imm)
  else if v / 4096 % 16 = 0x7 then .ok (.AddVxByte x imm)
  else if v / 4096 % 16 = 0x8 ∧ v % 16 = 0x0 then .ok (.LdVxVy x y)
  else if v / 4096 % 16 = 0x8 ∧ v % 16 = 0x1 then .ok (.Or x y)
  else if v / 4096 % 16 = 0x8 ∧ v % 16 = 0x2 then .ok (.And x y)
  else if v / 4096 % 16 = 0x8 ∧ v % 16 = 0x3 then .ok (.Xor x y)
  else if v / 4096 % 16 = 0x8 ∧ v % 16 = 0x4 then .ok (.AddVxVy x y)
  else if v / 4096 % 16 = 0x8 ∧ v % 16 = 0x5 then .ok (.Sub x y)
  else if v / 4096 % 16 = 0x8 ∧ v % 16 = 0x6 then .ok (.Shr x y)
  else if v / 4096 % 16 = 0x8 ∧ v % 16 = 0x7 then .ok (.Subn x y)
  else if v / 4096 % 16 = 0x8 ∧ v % 16 = 0xE then .ok (.Shl x y)
  else if v / 4096 % 16 = 0x9 ∧ v % 16 = 0x0 then .ok (.SneVxVy x y)
  else if v / 4096 % 16 = 0xA then .ok (.LdIAddr addr)
  else if v / 4096 % 16 = 0xB then .ok (.JpV0Addr addr)
  else if v / 4096 % 16 = 0xC then .ok (.Rnd x imm)
  else if v / 4096 % 16 = 0xD then .ok (.Drw x y (v % 16))
  else if v / 4096 % 16 = 0xE ∧ imm = 0x9E then .ok (.Skp x)
  else if v / 4096 % 16 = 0xE ∧ imm = 0xA1 then .ok (.Sknp x)
  else if v / 4096 % 16 = 0xF ∧ imm = 0x07 then .ok (.LdVxDt x)
  else if v / 4096 % 16 = 0xF ∧ imm = 0x0A then .ok (.LdVxK x)
  else if v / 4096 % 16 = 0xF ∧ imm = 0x15 then .ok (.LdDtVx x)
  else if v / 4096 % 16 = 0xF ∧ imm = 0x18 then .ok (.LdStVx x)
  else if v / 4096 % 16 = 0xF ∧ imm = 0x1E then .ok (.AddIVx x)
  else if v / 4096 % 16 = 0xF ∧ imm = 0x29 then .ok (.LdFVx x)
  else if v / 4096 % 16 = 0xF ∧ imm = 0x33 then .ok (.LdBVx x)
  else if v / 4096 % 16 = 0xF ∧ imm = 0x55 then .ok (.LdIVx x)
  else if v / 4096 % 16 = 0xF ∧ imm = 0x65 then .ok (.LdVxI x)
  else .error (parseErrMsg v)

/-- Masking with `0xF` is reduction mod 16. -/
theorem and15_eq (n : Nat) : n &&& 15 = n % 16 := by
  have h := Nat.and_pow_two_sub_one_eq_mod n 4
  norm_num at h
  exact h

/-- The most significant nibble, in arithmetic form. -/
theorem nib12 (v : Nat) : (v >>> 12) &&& 15 = v / 4096 % 16 := by
  rw [and15_eq, Nat.shiftRight_eq_div_pow]

/-- Nibble 2 (bits 8–11), in arithmetic form. -/
theorem nib8 (v : Nat) : (v >>> 8) &&& 15 = v / 256 % 16 := by
  rw [and15_eq, Nat.shiftRight_eq_div_pow]

/-- Nibble 3 (bits 4–7), in arithmetic form. -/
theorem nib4 (v : Nat) : (v >>> 4) &&& 15 = v / 16 % 16 := by
  rw [and15_eq, Nat.shiftRight_eq_div_pow]

/-- The decoder's reassembled 8-bit immediate `(y << 4) | k` equals the low
byte of the word. -/
theorem byte_reassemble (v : Nat) :
    ((v / 16 % 16) <<< 4) ||| (v % 16) = v % 256 := by
  rw [Nat.shiftLeft_eq, Nat.mul_comm]
  rw [← Nat.mul_add_lt_is_or (i := 4) (b := v % 16) (by omega) (v / 16 % 16)]
  omega

/-- The decoder's reassembled 12-bit address `(x << 8) | (y << 4) | k` equals
the low 12 bits of the word. -/
theorem addr_reassemble (v : Nat) :
    ((v / 256 % 16) <<< 8) ||| ((v / 16 % 16) <<< 4) ||| (v % 16) = v % 4096 := by
  rw [Nat.shiftLeft_eq, Nat.shiftLeft_eq,
    Nat.mul_comm (v / 256 % 16), Nat.mul_comm (v / 16 % 16)]
  rw [← Nat.mul_add_lt_is_or (i := 8) (b := 2 ^ 4 * (v / 16 % 16)) (by omega) (v / 256 % 16)]
  rw [show 2 ^ 8 * (v / 256 % 16) + 2 ^ 4 * (v / 16 % 16)
        = 2 ^ 4 * (16 * (v / 256 % 16) + v / 16 % 16) by omega]
  rw [← Nat.mul_add_lt_is_or (i := 4) (b := v % 16) (by omega)
    (16 * (v / 256 % 16) + v / 16 % 16)]
  omega

/-- **C1.** For every 16-bit opcode word the decoder is a pure total
function agreeing with the 35-variant nibble-pattern table: a word matching a
table entry yields exactly that variant with its operands reassembled as
specified (12-bit address from nibbles 2–4, 8-bit immediate from nibbles 3–4,
register indices from single nibbles, `0x00E0` → Clear and `0x00EE` → Return
before the legacy system-call fallback), and any word matching no pattern
yields the decode error naming the offending value (`specDecodeTable` errors
with `parseErrMsg v`, which embeds the hexadecimal rendering of `v`); being a
total Lean function into `Except`, `decode` panics on no input. -/
theorem decode_agrees_with_table : ∀ v : Fin 65536, decode v.val = specDecodeTable v.val := by
  intro w
  obtain ⟨v, hv⟩ := w
  show decode v = specDecodeTable v
  simp only [decode, specDecodeTable, nib12, nib8, nib4]
  simp only [and15_eq]
  simp only [byte_reassemble, addr_reassemble]
  repeat (refine if_congr ?_ rfl ?_; rotate_left)
  rfl
  all_goals omega

/-! ## The interpreter state (`src/interpreter.rs`) -/

/-- Total size of the available memory, 4KB (`RAM_SIZE`). -/
def RAM_SIZE : Nat := 0x1000

/-- Start of the program (`PROGRAM_START`). -/
def PROGRAM_START : Nat := 0x200

/-- The flag register VF (`REG_VF`). -/
def REG_VF : Fin 16 := 15

/-- The machine state of `struct Interpreter` together with the oracle
streams that model its external collaborators (window, keyboard, RNG and
wall clock) and a counter of queued draw commands.  `memory` stands for the
4096-byte `Vec<u8>` (all reads and writes that the engine performs are
bounds-checked before use, mirroring the Rust panics), `stack` for the
16-slot `[u16; 16]` array, `frame_buffer` for the 32 `u64` rows shared with
the window. -/
structure Chip8 where
  memory : Nat → Nat
  program_counter : Nat
  registers : Fin 16 → Nat
  address_register : Nat
  sound_register : Nat
  timer_register : Nat
  stack_pointer : Nat
  stack : Nat → Nat
  frame_buffer : Fin 32 → Nat
  /-- Oracle: current key-down state reported by the window thread. -/
  keys : Nat → Bool
  /-- Oracle: the stream of keys reported by `wait_for_key_press`. -/
  waitKeys : Nat → Nat
  waitIdx : Nat
  /-- Oracle: the stream of `rand::random::<u8>()` results. -/
  rands : Nat → Nat
  randIdx : Nat
  /-- Oracle: whether a 60 Hz timer period had elapsed when iteration `n`
  of the execute loop checked the wall clock. -/
  ticks : Nat → Bool
  tickIdx : Nat
  /-- Number of redraw commands queued to the window. -/
  draws : Nat

/-- Overwrite `bytes.length` memory cells starting at `address`. -/
def writeList : (Nat → Nat) → Nat → List Nat → (Nat → Nat)
  | m, _, [] => m
  | m, a, b :: bs => writeList (fun x => if x = a then b else m x) (a + 1) bs

/-- `write_bytes`: Rust `Vec::splice` over `address..(address + len)`, which
panics (`none`) when the range leaves the 4096-byte memory. -/
def writeBytes (m : Nat → Nat) (address : Nat) (bytes : List Nat) : Option (Nat → Nat) :=
  if address + bytes.length ≤ RAM_SIZE then some (writeList m address bytes) else none

/-- `read_byte`: `memory.get(address)`, `None` when out of range. -/
def readByte (m : Nat → Nat) (address : Nat) : Option Nat :=
  if address < RAM_SIZE then some (m address) else none

/-- `read_u16`: big-endian word from the slice `memory[address..=address+1]`;
the slice itself panics (`none`) when it leaves memory, so the surrounding
`unwrap_or_default` never sees a `None`. -/
def readU16 (m : Nat → Nat) (address : Nat) : Option Nat :=
  if address + 1 < RAM_SIZE then some (256 * m address + m (address + 1)) else none

/-- `read_bytes`: the slice `memory[address..address+len]`, a panic (`none`)
when the range leaves memory. -/
def readBytes (m : Nat → Nat) (address len : Nat) : Option (List Nat) :=
  if address + len ≤ RAM_SIZE then some ((List.range len).map fun i => m (address + i))
  else none

/-- `push_subroutine`: increment the `u8` stack pointer, store the current
program counter at the slot named by the incremented pointer, then jump.
`none` models the Rust panics: `u8` overflow of `stack_pointer += 1`
(pointer at 255) and the index panic of `stack[sp]` for `sp ≥ 16`. -/
def pushSubroutine (s : Chip8) (address : Nat) : Option Chip8 :=
  if s.stack_pointer = 255 then none
  else if s.stack_pointer + 1 < 16 then
    some { s with stack_pointer := s.stack_pointer + 1,
                  stack := fun a => if a = s.stack_pointer + 1 then s.program_counter else s.stack a,
                  program_counter := address }
  else none

/-- `pop_subroutine`: read the slot at the current stack pointer into the
program counter (index panic for `sp ≥ 16`), then decrement the `u8` pointer
(underflow panic at 0). -/
def popSubroutine (s : Chip8) : Option Chip8 :=
  if s.stack_pointer < 16 then
    if s.stack_pointer = 0 then none
    else some { s with program_counter := s.stack s.stack_pointer,
                       stack_pointer := s.stack_pointer - 1 }
  else none

/-- `u64::rotate_right`: the rotation amount is taken mod 64 and the result
is a 64-bit value. -/
def rotr64 (v n : Nat) : Nat :=
  ((v >>> (n % 64)) ||| (v <<< (64 - n % 64))) % 2 ^ 64

/-- The row loop of `draw_sprite`: XOR the rotated sprite byte into row
`(y + i) % 32`, set `VF` from this row's collision test
(`(original & !res) != 0`), write the row back, continue with `i + 1`. -/
def drawRows (x y : Nat) : List Nat → Nat → Chip8 → Chip8
  | [], _, s => s
  | byte :: rest, i, s =>
    let coord : Fin 32 := ⟨(y + i) % 32, Nat.mod_lt _ (by omega)⟩
    let original := s.frame_buffer coord
    -- shift an additional 8 bits, so the byte is moved to the beginning
    let res := original ^^^ rotr64 byte (x + 8)
    let regs1 := Function.update s.registers REG_VF
      (if original &&& (res ^^^ (2 ^ 64 - 1)) ≠ 0 then 1 else 0)
    let s' := { s with registers := regs1,
                       frame_buffer := Function.update s.frame_buffer coord res }
    drawRows x y rest (i + 1) s'

/-- `draw_sprite`: read `n` bytes at the address register (`read_bytes`, a
slice, so leaving memory is a panic), then XOR them row by row into the
frame buffer. -/
def drawSprite (s : Chip8) (x y n : Nat) : Option Chip8 :=
  match readBytes s.memory s.address_register n with
  | none => none
  | some draw_bytes => some (drawRows x y draw_bytes 0 s)

/-- The `while val > 0` loop of `LD B, Vx`: write the decimal digits of
`val`, least significant digit first, at `memory[I + i]` with `i` counting
up from 0; each digit goes through `write_bytes` (bounds-checked). -/
def ldBVxLoop (val i : Nat) (ar : Nat) (m : Nat → Nat) : Option (Nat → Nat) :=
  if val > 0 then
    match writeBytes m (ar + i) [val % 10] with
    | none => none
    | some m' => ldBVxLoop (val / 10) (i + 1) ar m'
  else some m
termination_by val
decreasing_by exact Nat.div_lt_self (by omega) (by omega)

/-- The store loop of `LD [I], Vx`: one `write_bytes` call per register
value, at consecutive addresses starting at `I`. -/
def writeRegList (m : Nat → Nat) (a : Nat) : List Nat → Option (Nat → Nat)
  | [] => some m
  | b :: bs =>
    match writeBytes m a [b] with
    | none => none
    | some m' => writeRegList m' (a + 1) bs

/-- The load loop of `LD Vx, [I]`: `read_byte(I + i).unwrap()` panics
(`none`) when `I + i` leaves memory; registers are updated in order. -/
def loadRegList (m : Nat → Nat) (ar : Nat) : List (Fin 16) → (Fin 16 → Nat) → Option (Fin 16 → Nat)
  | [], regs => some regs
  | i :: rest, regs =>
    match readByte m (ar + i.val) with
    | none => none
    | some b => loadRegList m ar rest (Function.update regs i b)

/-- `execute_instruction`.  The Rust function returns `Result<(), String>`
but never constructs an `Err`, so the embedding returns `Option Chip8` where
`none` models panics only.  All values are `u8`-sized by construction
(register writes wrap mod 256 exactly where the Rust `u8` arithmetic wraps).
The `pc += 2` of the skip instructions is a `u16` addition whose overflow is
unreachable (the fetch guard keeps `pc + 1 < 4096`), so it is not guarded. -/
def executeInstruction (s : Chip8) : Instruction → Option Chip8
  | .Sys addr => pushSubroutine s addr
  | .Cls =>
    -- `window.clear()` zeroes the shared frame buffer
    some { s with frame_buffer := fun _ => 0 }
  | .Ret => popSubroutine s
  | .JpAddr addr => some { s with program_counter := addr }
  | .Call addr => pushSubroutine s addr
  | .SeVxByte reg byte =>
    if s.registers reg = byte then some { s with program_counter := s.program_counter + 2 }
    else some s
  | .SneVxByte reg byte =>
    if s.registers reg ≠ byte then some { s with program_counter := s.program_counter + 2 }
    else some s
  | .SeVxVy x y =>
    if s.registers x = s.registers y then some { s with program_counter := s.program_counter + 2 }
    else some s
  | .LdVxByte reg byte => some { s with registers := Function.update s.registers reg byte }
  | .AddVxByte reg byte =>
    -- `wrapping_add` on u8
    some { s with registers := Function.update s.registers reg ((s.registers reg + byte) % 256) }
  | .LdVxVy x y => some { s with registers := Function.update s.registers x (s.registers y) }
  | .Or x y =>
    some { s with registers := Function.update s.registers x (s.registers x ||| s.registers y) }
  | .And x y =>
    some { s with registers := Function.update s.registers x (s.registers x &&& s.registers y) }
  | .Xor x y =>
    some { s with registers := Function.update s.registers x (s.registers x ^^^ s.registers y) }
  | .AddVxVy x y =>
    -- the sum is computed in u16, so it does not overflow; `res as u8`
    -- truncates and `(res > 255) as u8` is the carry
    let res := s.registers x + s.registers y
    let regs1 := Function.update (Function.update s.registers x (res % 256)) REG_VF
      (if 255 < res then 1 else 0)
    some { s with registers := regs1 }
  | .Sub x y =>
    let xv := s.registers x
    let yv := s.registers y
    -- `wrapping_sub` on u8, then `(x >= y) as u8`
    let regs1 := Function.update (Function.update s.registers x ((xv + 256 - yv) % 256)) REG_VF
      (if yv ≤ xv then 1 else 0)
    some { s with registers := regs1 }
  | .Shr x y =>
    let yv := s.registers y
    let regs1 := Function.update (Function.update s.registers x (yv >>> 1)) REG_VF (yv &&& 1)
    some { s with registers := regs1 }
  | .Subn x y =>
    let xv := s.registers x
    let yv := s.registers y
    let regs1 := Function.update (Function.update s.registers x ((yv + 256 - xv) % 256)) REG_VF
      (if xv ≤ yv then 1 else 0)
    some { s with registers := regs1 }
  | .Shl x y =>
    -- `y << 1` truncates to u8; `(y >> 7) & 1` is the pre-shift msb
    let yv := s.registers y
    let regs1 := Function.update (Function.update s.registers x ((yv <<< 1) % 256)) REG_VF
      ((yv >>> 7) &&& 1)
    some { s with registers := regs1 }
  | .SneVxVy x y =>
    if s.registers x ≠ s.registers y then some { s with program_counter := s.program_counter + 2 }
    else some s
  | .LdIAddr addr => some { s with address_register := addr }
  | .JpV0Addr addr =>
    -- u16 addition; decoder addresses are ≤ 0xFFF, so no overflow
    some { s with program_counter := addr + s.registers 0 }
  | .Rnd reg byte =>
    -- `rand::random::<u8>()` modelled by the oracle stream (taken mod 256)
    let regs1 := Function.update s.registers reg (s.rands s.randIdx % 256 &&& byte)
    some { s with registers := regs1, randIdx := s.randIdx + 1 }
  | .Drw x y n => drawSprite s (s.registers x) (s.registers y) n
  | .Skp reg =>
    if s.keys (s.registers reg) then some { s with program_counter := s.program_counter + 2 }
    else some s
  | .Sknp reg =>
    if !s.keys (s.registers reg) then some { s with program_counter := s.program_counter + 2 }
    else some s
  | .LdVxDt reg => some { s with registers := Function.update s.registers reg s.timer_register }
  | .LdVxK reg =>
    -- `wait_for_key_press` blocks; the oracle stream supplies the key (u8)
    let regs1 := Function.update s.registers reg (s.waitKeys s.waitIdx % 256)
    some { s with registers := regs1, waitIdx := s.waitIdx + 1 }
  | .LdDtVx reg => some { s with timer_register := s.registers reg }
  | .LdStVx reg => some { s with sound_register := s.registers reg }
  | .AddIVx reg =>
    -- `+=` on u16: debug-mode overflow panic
    if s.address_register + s.registers reg < 65536 then
      some { s with address_register := s.address_register + s.registers reg }
    else none
  | .LdFVx reg =>
    -- `wrapping_mul(5)` on u8, then cast to u16
    some { s with address_register := s.registers reg * 5 % 256 }
  | .LdBVx reg =>
    match ldBVxLoop (s.registers reg) 0 s.address_register s.memory with
    | none => none
    | some m => some { s with memory := m }
  | .LdIVx reg =>
    -- `registers.into_iter().take(reg + 1)` copies the register file first
    match writeRegList s.memory s.address_register
        (((List.finRange 16).take (reg.val + 1)).map s.registers) with
    | none => none
    | some m => some { s with memory := m }
  | .LdVxI reg =>
    match loadRegList s.memory s.address_register
        ((List.finRange 16).take (reg.val + 1)) s.registers with
    | none => none
    | some regs => some { s with registers := regs }

/-- `matches!(instruction, Instruction::Drw(..))`. -/
def isDrawCall : Instruction → Bool
  | .Drw _ _ _ => true
  | _ => false

/-- Outcome of the `execute` loop under a given amount of fuel. -/
inductive RunResult where
  /-- The loop returned `Ok(())`: a zero word was fetched. -/
  | ok (s : Chip8)
  /-- The decoder failed and `execute` propagated the error string. -/
  | decodeError (msg : String)
  /-- A Rust panic (out-of-bounds access or arithmetic overflow). -/
  | panicked
  /-- Fuel exhausted with the machine still running. -/
  | fuelOut (s : Chip8)

/-- The `execute` loop.  Each iteration: fetch the big-endian word at the
program counter (the slice in `read_u16` panics when it leaves memory); a
zero word terminates successfully; decode errors are propagated via `?`; the
counter is advanced by 2 before the instruction executes; both timers
saturating-decrement by one when the wall-clock oracle reports that a 60 Hz
period elapsed at this iteration; a draw instruction queues one redraw
command afterwards.  The `pc += 2` cannot overflow u16 because the fetch
guard keeps `pc + 1 < 4096`. -/
def run : Nat → Chip8 → RunResult
  | 0, s => .fuelOut s
  | fuel + 1, s =>
    match readU16 s.memory s.program_counter with
    | none => .panicked
    | some w =>
      if w = 0 then .ok s  -- likely found last instruction
      else
        match decode w with
        | .error e => .decodeError e
        | .ok inst =>
          let s1 := { s with program_counter := s.program_counter + 2 }
          match executeInstruction s1 inst with
          | none => .panicked
          | some s2 =>
            let s3 :=
              if s2.ticks s2.tickIdx then
                { s2 with timer_register := s2.timer_register - 1,
                          sound_register := s2.sound_register - 1,
                          tickIdx := s2.tickIdx + 1 }
              else { s2 with tickIdx := s2.tickIdx + 1 }
            let s4 := if isDrawCall inst then { s3 with draws := s3.draws + 1 } else s3
            run fuel s4

/-- `Window::DIGITS`: the sixteen 5-byte font glyphs, digits 0 to F. -/
def DIGITS : List (List Nat) :=
  [[0xF0, 0x90, 0x90, 0x90, 0xF0],
   [0x20, 0x60, 0x20, 0x20, 0x70],
   [0xF0, 0x10, 0xF0, 0x80, 0xF0],
   [0xF0, 0x10, 0xF0, 0x10, 0xF0],
   [0x90, 0x90, 0xF0, 0x10, 0x10],
   [0xF0, 0x80, 0xF0, 0x10, 0xF0],
   [0xF0, 0x80, 0xF0, 0x90, 0xF0],
   [0xF0, 0x10, 0x20, 0x40, 0x40],
   [0xF0, 0x90, 0xF0, 0x90, 0xF0],
   [0xF0, 0x90, 0xF0, 0x10, 0xF0],
   [0xF0, 0x90, 0xF0, 0x90, 0x90],
   [0xE0, 0x90, 0xE0, 0x90, 0xE0],
   [0xF0, 0x80, 0x80, 0x80, 0xF0],
   [0xE0, 0x90, 0x90, 0x90, 0xE0],
   [0xF0, 0x80, 0xF0, 0x80, 0xF0],
   [0xF0, 0x80, 0xF0, 0x80, 0x80]]

/-- The memory set up by `Interpreter::new`: zeroed, then each font glyph
written at `idx * 5`, then the ROM bytes written at `0x200`. -/
def initMemory (rom : List Nat) : Option (Nat → Nat) := do
  let mFont ← DIGITS.enum.foldlM
    (fun m p => writeBytes m (p.1 * p.2.length) p.2) (fun _ => 0)
  writeBytes mFont PROGRAM_START rom

/-- `Interpreter::new` with the given ROM and environment oracles: fresh
registers, timers, stack and frame buffer, counter at `0x200`. -/
def initState (rom : List Nat) (keys : Nat → Bool) (waitKeys rands : Nat → Nat)
    (ticks : Nat → Bool) : Option Chip8 :=
  match initMemory rom with
  | none => none
  | some m =>
    some { memory := m
           program_counter := PROGRAM_START
           registers := fun _ => 0
           address_register := 0
           sound_register := 0
           timer_register := 0
           stack_pointer := 0
           stack := fun _ => 0
           frame_buffer := fun _ => 0
           keys := keys
           waitKeys := waitKeys
           waitIdx := 0
           rands := rands
           randIdx := 0
           ticks := ticks
           tickIdx := 0
           draws := 0 }

/-! ## Concrete test fixtures -/

/-- An all-zero machine state with trivial oracles, used as the base of
concrete test states. -/
def blankState : Chip8 :=
  { memory := fun _ => 0
    program_counter := PROGRAM_START
    registers := fun _ => 0
    address_register := 0
    sound_register := 0
    timer_register := 0
    stack_pointer := 0
    stack := fun _ => 0
    frame_buffer := fun _ => 0
    keys := fun _ => false
    waitKeys := fun _ => 0
    waitIdx := 0
    rands := fun _ => 0
    randIdx := 0
    ticks := fun _ => false
    tickIdx := 0
    draws := 0 }

/-! ## C3: SHR and SHL shift Vy into Vx -/

/-- **C3.** For every pair of register indices: `SHR Vx,Vy` stores `Vy >> 1`
into `Vx` and then sets `VF` to the least-significant bit of `Vy`'s pre-shift
value; `SHL Vx,Vy` stores the low 8 bits of `Vy << 1` into `Vx` and then sets
`VF` to the most-significant bit of `Vy`'s pre-shift value (the final
register file is exactly the composition of the two writes, in that order).
In particular `Vy = 0b0000_0011` under SHR yields `Vx = 0b0000_0001` and
`VF = 1`. -/
theorem shr_shl_shift_vy (x y : Fin 16) (s : Chip8) :
    executeInstruction s (.Shr x y) = some { s with registers := Function.update (Function.update s.registers x (s.registers y >>> 1)) REG_VF (s.registers y &&& 1) } ∧
    executeInstruction s (.Shl x y) = some { s with registers := Function.update (Function.update s.registers x ((s.registers y <<< 1) % 256)) REG_VF ((s.registers y >>> 7) &&& 1) } ∧
    (s.registers y = 3 →
      ∃ t, executeInstruction s (.Shr x y) = some t ∧
        t.registers x = 1 ∧ t.registers REG_VF = 1) := by
  refine ⟨rfl, rfl, fun hy => ⟨_, rfl, ?_, ?_⟩⟩
  · by_cases hx : x = REG_VF
    · subst hx
      simp [Function.update, hy]
    · simp [Function.update, hx, hy]
  · simp [Function.update, hy]

/-- Witness for `shr_shl_shift_vy` at concrete inputs. -/
theorem shr_shl_shift_vy_witness :
    ∃ t, executeInstruction { blankState with registers := Function.update blankState.registers 1 3 } (.Shr 0 1) = some t ∧
      t.registers 0 = 1 ∧ t.registers REG_VF = 1 :=
  (shr_shl_shift_vy 0 1 { blankState with registers := Function.update blankState.registers 1 3 }).2.2 (by decide)

/-! ## C6: ADD Vx,Vy with carry -/

/-- **C6.** `ADD Vx,Vy` stores the low 8 bits of the (at most 9-bit) sum
`Vx + Vy` into `Vx` and then sets `VF` to 1 exactly when the sum exceeds
255 (the final register file is the composition of the two writes).  In
particular `V0 = 0xFF, V1 = 0x01` yields `V0 = 0x00, VF = 1`, and
`V0 = 0x01, V1 = 0x01` yields `V0 = 0x02, VF = 0`. -/
theorem add_vx_vy_carry (x y : Fin 16) (s : Chip8) :
    executeInstruction s (.AddVxVy x y) = some { s with registers := Function.update (Function.update s.registers x ((s.registers x + s.registers y) % 256)) REG_VF (if 255 < s.registers x + s.registers y then 1 else 0) } ∧
    (s.registers 0 = 0xFF → s.registers 1 = 0x01 →
      ∃ t, executeInstruction s (.AddVxVy 0 1) = some t ∧
        t.registers 0 = 0x00 ∧ t.registers REG_VF = 1) ∧
    (s.registers 0 = 0x01 → s.registers 1 = 0x01 →
      ∃ t, executeInstruction s (.AddVxVy 0 1) = some t ∧
        t.registers 0 = 0x02 ∧ t.registers REG_VF = 0) := by
  refine ⟨rfl, fun h0 h1 => ⟨_, rfl, ?_, ?_⟩, fun h0 h1 => ⟨_, rfl, ?_, ?_⟩⟩ <;>
    simp [Function.update, h0, h1, REG_VF]

/-- Witness for `add_vx_vy_carry` at concrete inputs. -/
theorem add_vx_vy_carry_witness :
    ∃ t, executeInstruction { blankState with registers := fun i => if i = 0 then 0xFF else if i = 1 then 1 else 0 } (.AddVxVy 0 1) = some t ∧
      t.registers 0 = 0x00 ∧ t.registers REG_VF = 1 :=
  (add_vx_vy_carry 0 1 { blankState with registers := fun i => if i = 0 then 0xFF else if i = 1 then 1 else 0 }).2.1 (by decide) (by decide)

/-! ## C7: SUB and SUBN borrow flags -/

/-- **C7.** `SUB Vx,Vy` stores `(Vx - Vy) mod 256` into `Vx` and then sets
`VF` to 1 exactly when the pre-subtraction `Vx ≥ Vy`; `SUBN Vx,Vy` stores
`(Vy - Vx) mod 256` into `Vx` and then sets `VF` to 1 exactly when
`Vy ≥ Vx` (final register files given as the composition of the writes).
In particular `V0 = 5, V1 = 3` yields `V0 = 2, VF = 1`, and `V0 = 3,
V1 = 5` yields `V0 = 0xFE, VF = 0`. -/
theorem sub_subn_borrow (x y : Fin 16) (s : Chip8) :
    executeInstruction s (.Sub x y) = some { s with registers := Function.update (Function.update s.registers x ((s.registers x + 256 - s.registers y) % 256)) REG_VF (if s.registers y ≤ s.registers x then 1 else 0) } ∧
    executeInstruction s (.Subn x y) = some { s with registers := Function.update (Function.update s.registers x ((s.registers y + 256 - s.registers x) % 256)) REG_VF (if s.registers x ≤ s.registers y then 1 else 0) } ∧
    (s.registers 0 = 5 → s.registers 1 = 3 →
      ∃ t, executeInstruction s (.Sub 0 1) = some t ∧
        t.registers 0 = 2 ∧ t.registers REG_VF = 1) ∧
    (s.registers 0 = 3 → s.registers 1 = 5 →
      ∃ t, executeInstruction s (.Sub 0 1) = some t ∧
        t.registers 0 = 0xFE ∧ t.registers REG_VF = 0) := by
  refine ⟨rfl, rfl, fun h0 h1 => ⟨_, rfl, ?_, ?_⟩, fun h0 h1 => ⟨_, rfl, ?_, ?_⟩⟩ <;>
    simp [Function.update, h0, h1, REG_VF]

/-- Witness for `sub_subn_borrow` at concrete inputs. -/
theorem sub_subn_borrow_witness :
    ∃ t, executeInstruction { blankState with registers := fun i => if i = 0 then 5 else if i = 1 then 3 else 0 } (.Sub 0 1) = some t ∧
      t.registers 0 = 2 ∧ t.registers REG_VF = 1 :=
  (sub_subn_borrow 0 1 { blankState with registers := fun i => if i = 0 then 5 else if i = 1 then 3 else 0 }).2.2.1 (by decide) (by decide)

/-! ## C2: the BCD instruction writes digits in reverse order -/

/-- **C2 (code bug).** The claim (and the doc comment of `LdBVx` in
`src/instruction.rs`) requires the hundreds digit at `memory[I]`: `Vx = 123`
should give `memory[I..I+3] = [1, 2, 3]`.  The loop in `execute_instruction`
instead emits digits least-significant first, so `Vx = 123` writes
`memory[I] = 3, memory[I+1] = 2, memory[I+2] = 1`; and `Vx = 0` writes
nothing at all (here: the state is returned unchanged), so `[0,0,0]` is seen
only if those cells already held zero. -/
theorem ldBVx_writes_digits_reversed :
    (executeInstruction { blankState with registers := Function.update blankState.registers 0 123, address_register := 0x300 } (.LdBVx 0)).map
        (fun t => (t.memory 0x300, t.memory 0x301, t.memory 0x302)) = some (3, 2, 1) ∧
    executeInstruction { blankState with address_register := 0x300 } (.LdBVx 0) =
      some { blankState with address_register := 0x300 } := by
  constructor
  · simp [executeInstruction, ldBVxLoop, writeBytes, writeList, RAM_SIZE,
      Function.update, blankState]
  · simp [executeInstruction, ldBVxLoop, blankState, Function.update]

/-! ## C10: DRW with n = 0 -/

/-- **C10 (counterexample).** The claim says `DRW Vx,Vy,0` leaves *every*
machine state unchanged, but when the address register points past the 4096
byte memory the zero-length `read_bytes` slice panics (modelled as `none`),
so the instruction does not return the unchanged state. -/
theorem drw_zero_panics_when_i_out_of_range :
    executeInstruction { blankState with address_register := 5000 } (.Drw 0 0 0) = none ∧
    executeInstruction { blankState with address_register := 5000 } (.Drw 0 0 0) ≠
      some { blankState with address_register := 5000 } := by
  have h : executeInstruction { blankState with address_register := 5000 } (.Drw 0 0 0) = none := rfl
  rw [h]
  simp

/-- **C10 (amended).** For every machine state whose address register is at
most 4096 (so the zero-length slice `read_bytes(I, 0)` stays in bounds),
executing `DRW Vx,Vy,n` with `n = 0` returns the state entirely unchanged —
frame buffer, memory, address register and all sixteen registers including
`VF`, because the per-row collision write only happens inside the row
loop. -/
theorem drw_zero_is_noop (x y : Fin 16) (s : Chip8) (h : s.address_register ≤ 4096) :
    executeInstruction s (.Drw x y 0) = some s := by
  show drawSprite s (s.registers x) (s.registers y) 0 = some s
  unfold drawSprite readBytes
  rw [if_pos (by simpa [RAM_SIZE] using h)]
  rfl

/-- Witness for `drw_zero_is_noop` at a concrete state. -/
theorem drw_zero_is_noop_witness :
    blankState.address_register ≤ 4096 ∧
      executeInstruction blankState (.Drw 0 0 0) = some blankState :=
  ⟨by decide, drw_zero_is_noop 0 0 blankState (by decide)⟩

/-! ## Bit-level helpers for the draw claims -/

/-- A bit test of a 64-bit right-rotation: bit `p` of `rotate_right(v, n)` is
bit `(p + n mod 64) mod 64` of `v`. -/
theorem rotr64_testBit (v n p : Nat) (hv : v < 2 ^ 64) (hp : p < 64) :
    (rotr64 v n).testBit p = v.testBit ((p + n % 64) % 64) := by
  have hk : n % 64 < 64 := Nat.mod_lt _ (by omega)
  unfold rotr64
  rw [Nat.testBit_mod_two_pow, Nat.testBit_or, Nat.testBit_shiftRight,
    Nat.testBit_shiftLeft]
  rw [decide_eq_true hp, Bool.true_and]
  by_cases hc : p < 64 - n % 64
  · have hle : ¬(64 - n % 64 ≤ p) := by omega
    have hidx : (p + n % 64) % 64 = n % 64 + p := by omega
    simp [hle, hidx]
  · have h64 : 64 - n % 64 ≤ p := by omega
    have hdead : v.testBit (n % 64 + p) = false :=
      Nat.testBit_lt_two_pow (lt_of_lt_of_le hv (Nat.pow_le_pow_right (by omega) (by omega)))
    have hidx : (p + n % 64) % 64 = p - (64 - n % 64) := by omega
    simp [hdead, h64, hidx]

/-- The collision condition of the *second* identical draw simplifies: with
`o` the original row (a 64-bit value) and `m` the positioned sprite bits,
`(o ^^^ m) &&& !o = m &&& !o` where `!o = o ^^^ (2^64 - 1)`. -/
theorem xor_and_complement (o m : Nat) (ho : o < 2 ^ 64) :
    (o ^^^ m) &&& (o ^^^ (2 ^ 64 - 1)) = m &&& (o ^^^ (2 ^ 64 - 1)) := by
  apply Nat.eq_of_testBit_eq
  intro i
  simp only [Nat.testBit_and, Nat.testBit_xor, Nat.testBit_two_pow_sub_one]
  by_cases hi : i < 64
  · rw [decide_eq_true hi]
    cases o.testBit i <;> cases m.testBit i <;> rfl
  · have hzero : o.testBit i = false :=
      Nat.testBit_lt_two_pow (lt_of_lt_of_le ho (Nat.pow_le_pow_right (by omega) (by omega)))
    simp [hi, hzero]

/-! ## C4: drawing the same 8×1 sprite twice -/

/-- **C4 (counterexample).** The claim asserts the second identical draw
always sets `VF = 1`, but when the eight targeted pixels were all already lit
the first draw lights nothing, and the second draw reports no collision:
starting from a fully lit row, two draws of the `0xFF` sprite at `(0, 0)`
leave `VF = 0` after the second draw. -/
theorem draw_twice_full_row_vf_zero :
    ∃ s₁ s₂,
      drawSprite { blankState with memory := fun a => if a = 0x300 then 0xFF else 0, address_register := 0x300, frame_buffer := fun _ => 2 ^ 64 - 1 } 0 0 1 = some s₁ ∧
      drawSprite s₁ 0 0 1 = some s₂ ∧ s₂.registers REG_VF = 0 := by
  refine ⟨_, _, rfl, rfl, by decide⟩

/-- **C4 (amended).** For every position (`x < 64`, `y < 32`), drawing the
8×1 sprite `0xFF` (read from `memory[I]`, in range) twice in succession
restores the whole frame buffer to its pre-first-draw state — in particular
every pixel lit by the first draw is cleared — and the second draw sets
`VF = 1` exactly when the first draw lit at least one pixel, i.e. when some
positioned sprite bit targeted an unlit pixel of the (64-bit) original row;
when all eight targeted pixels were already lit it sets `VF = 0`. -/
theorem draw_twice_restores (x y : Nat) (s : Chip8) (hx : x < 64) (hy : y < 32)
    (hmem : s.memory s.address_register = 0xFF) (har : s.address_register + 1 ≤ 4096)
    (hfb : s.frame_buffer ⟨(y + 0) % 32, by omega⟩ < 2 ^ 64) :
    ∃ s₁ s₂, drawSprite s x y 1 = some s₁ ∧ drawSprite s₁ x y 1 = some s₂ ∧
      s₂.frame_buffer = s.frame_buffer ∧
      s₂.registers REG_VF =
        (if rotr64 0xFF (x + 8) &&& (s.frame_buffer ⟨(y + 0) % 32, by omega⟩ ^^^ (2 ^ 64 - 1)) ≠ 0 then 1 else 0) := by
  have har' : s.address_register + 1 ≤ RAM_SIZE := by simpa [RAM_SIZE] using har
  have hrange : List.range 1 = [0] := rfl
  have h1 : drawSprite s x y 1 = some (drawRows x y [0xFF] 0 s) := by
    unfold drawSprite readBytes
    rw [if_pos har', hrange]
    simp [hmem]
  have hmem1 : (drawRows x y [0xFF] 0 s).memory = s.memory := by simp only [drawRows]
  have har1 : (drawRows x y [0xFF] 0 s).address_register = s.address_register := by
    simp only [drawRows]
  have h2 : drawSprite (drawRows x y [0xFF] 0 s) x y 1 =
      some (drawRows x y [0xFF] 0 (drawRows x y [0xFF] 0 s)) := by
    unfold drawSprite readBytes
    rw [hmem1, har1, if_pos har', hrange]
    simp [hmem]
  refine ⟨_, _, h1, h2, ?_, ?_⟩
  · simp only [drawRows]
    simp [Function.update_same, Function.update_idem, Nat.xor_cancel_right,
      Function.update_eq_self]
  · simp only [drawRows]
    simp only [Function.update_same, Nat.xor_cancel_right]
    rw [xor_and_complement _ _ hfb]

/-! ## C5: horizontal sprite positioning and wraparound -/

/-- **C5.** For every sprite row byte `b` drawn at horizontal coordinate
`x` (a register value, `< 256`), the XOR mask applied to the target row
places the sprite's bits so that, counting `j = 0..7` from the sprite's
leftmost bit, bit `j` lands at row-bit position `(63 - x - j) mod 64`
(written `(127 - x % 64 - j) % 64` in ℕ); in particular the leftmost bit
lands at `(63 - x) mod 64`, wrapping around the row rather than clipping.
Concretely, drawing the 8-wide sprite `0xFF` at `x = 60` onto an empty row
yields row value `0xF00000000000000F`, i.e. exactly the bits of columns
{60, 61, 62, 63, 0, 1, 2, 3} (column `c` is row bit `63 - c`). -/
theorem sprite_bits_positioned_wrapping :
    (∀ (x y b : Nat) (s : Chip8), x < 256 → b < 256 →
      s.memory s.address_register = b → s.address_register + 1 ≤ 4096 →
      ∃ t, drawSprite s x y 1 = some t ∧
        ∀ j : Fin 8,
          (t.frame_buffer ⟨(y + 0) % 32, by omega⟩ ^^^
              s.frame_buffer ⟨(y + 0) % 32, by omega⟩).testBit
            ((127 - x % 64 - j.val) % 64) = b.testBit (7 - j.val)) ∧
    (∃ t, drawSprite { blankState with memory := fun a => if a = 0x300 then 0xFF else 0, address_register := 0x300 } 60 0 1 = some t ∧
      t.frame_buffer ⟨(0 + 0) % 32, by omega⟩ = 0xF00000000000000F ∧
      ∀ c : Fin 64, (0xF00000000000000F : Nat).testBit (63 - c.val) =
        decide (60 ≤ c.val ∨ c.val ≤ 3)) := by
  constructor
  · intro x y b s hx hb hmem har
    have har' : s.address_register + 1 ≤ RAM_SIZE := by simpa [RAM_SIZE] using har
    have hrange : List.range 1 = [0] := rfl
    have h1 : drawSprite s x y 1 = some (drawRows x y [b] 0 s) := by
      unfold drawSprite readBytes
      rw [if_pos har', hrange]
      simp [hmem]
    refine ⟨_, h1, fun j => ?_⟩
    simp only [drawRows, Function.update_same]
    rw [Nat.xor_comm, Nat.xor_cancel_left]
    have hp : (127 - x % 64 - j.val) % 64 < 64 := by omega
    rw [rotr64_testBit b (x + 8) _ (by omega) hp]
    congr 1
    have hj := j.isLt
    omega
  · refine ⟨_, rfl, by decide, by decide⟩

/-- Witness for `sprite_bits_positioned_wrapping` at a concrete byte and
position. -/
theorem sprite_bits_positioned_wrapping_witness :
    ∃ t, drawSprite { blankState with memory := fun a => if a = 0x300 then 0xAB else 0, address_register := 0x300 } 5 3 1 = some t ∧
      ∀ j : Fin 8,
        (t.frame_buffer ⟨(3 + 0) % 32, by omega⟩ ^^^
            ({ blankState with memory := fun a => if a = 0x300 then 0xAB else 0, address_register := 0x300 } : Chip8).frame_buffer ⟨(3 + 0) % 32, by omega⟩).testBit
          ((127 - 5 % 64 - j.val) % 64) = (0xAB : Nat).testBit (7 - j.val) :=
  sprite_bits_positioned_wrapping.1 5 3 0xAB _ (by decide) (by decide) (by decide) (by decide)

/-- Witness for `draw_twice_restores` at a concrete position and state. -/
theorem draw_twice_restores_witness :
    ∃ s₁ s₂,
      drawSprite { blankState with memory := fun a => if a = 0x300 then 0xFF else 0, address_register := 0x300 } 5 3 1 = some s₁ ∧
      drawSprite s₁ 5 3 1 = some s₂ ∧
      s₂.frame_buffer = ({ blankState with memory := fun a => if a = 0x300 then 0xFF else 0, address_register := 0x300 } : Chip8).frame_buffer ∧
      s₂.registers REG_VF =
        (if rotr64 0xFF (5 + 8) &&& (({ blankState with memory := fun a => if a = 0x300 then 0xFF else 0, address_register := 0x300 } : Chip8).frame_buffer ⟨(3 + 0) % 32, by omega⟩ ^^^ (2 ^ 64 - 1)) ≠ 0 then 1 else 0) :=
  draw_twice_restores 5 3 _ (by decide) (by decide) (by decide) (by decide) (by decide)

/-! ## C8: zero word as termination sentinel; end-to-end ROM run -/

/-- Helper for C8: from any state whose next three fetches are `LD V0,0x05`,
`ADD V0,0x03` and a zero word (and whose tick-oracle counter starts at 0 and
draw counter at 0), the engine halts successfully within 3 cycles with
`V0 = 8` and no draw command queued — for every behaviour of the wall-clock
oracle. -/
theorem run_ld_add_halts (s : Chip8)
    (hf1 : readU16 s.memory s.program_counter = some 0x6005)
    (hf2 : readU16 s.memory (s.program_counter + 2) = some 0x7003)
    (hf3 : readU16 s.memory (s.program_counter + 2 + 2) = some 0)
    (htick : s.tickIdx = 0) (hdraws : s.draws = 0) :
    match run 3 s with
    | .ok sf => sf.registers 0 = 8 ∧ sf.draws = 0
    | _ => False := by
  have hd1 : decode 0x6005 = Except.ok (.LdVxByte 0 5) := by rfl
  have hd2 : decode 0x7003 = Except.ok (.AddVxByte 0 3) := by rfl
  cases h0 : s.ticks 0 <;> cases h1 : s.ticks 1 <;>
    simp +decide [run, executeInstruction, isDrawCall, hf1, hf2, hf3, hd1, hd2,
      h0, h1, htick, hdraws, Function.update]

/-- **C8.** When the 16-bit big-endian word fetched at the program counter
is exactly zero the engine stops successfully (returns `Ok` with the state
untouched) instead of decoding it; and running the ROM `LD V0,0x05`,
`ADD V0,0x03`, zero word from the initial state terminates successfully with
`V0 = 8` and no draw command issued, whatever the environment oracles do. -/
theorem zero_word_terminates :
    (∀ (fuel : Nat) (s : Chip8),
      readU16 s.memory s.program_counter = some 0 → run (fuel + 1) s = .ok s) ∧
    (∀ (keys : Nat → Bool) (waitKeys rands : Nat → Nat) (ticks : Nat → Bool),
      ∃ s0, initState [0x60, 0x05, 0x70, 0x03, 0x00, 0x00] keys waitKeys rands ticks = some s0 ∧
        match run 3 s0 with
        | .ok sf => sf.registers 0 = 8 ∧ sf.draws = 0
        | _ => False) := by
  constructor
  · intro fuel s h
    simp [run, h]
  · intro keys waitKeys rands ticks
    refine ⟨_, rfl, run_ld_add_halts _ ?_ ?_ ?_ rfl rfl⟩ <;> rfl

/-- Witness for `zero_word_terminates` at concrete inputs: the all-zero
state fetches a zero word and halts; the concrete ROM run with trivial
oracles. -/
theorem zero_word_terminates_witness :
    run 1 blankState = .ok blankState ∧
    (∃ s0, initState [0x60, 0x05, 0x70, 0x03, 0x00, 0x00] (fun _ => false) (fun _ => 0) (fun _ => 0) (fun _ => false) = some s0 ∧
      match run 3 s0 with
      | .ok sf => sf.registers 0 = 8 ∧ sf.draws = 0
      | _ => False) :=
  ⟨zero_word_terminates.1 0 blankState (by rfl),
   zero_word_terminates.2 (fun _ => false) (fun _ => 0) (fun _ => 0) (fun _ => false)⟩

/-! ## C9: call/return stack discipline -/

/-- The rows of a sprite draw never touch the stack. -/
theorem drawRows_stack (x y : Nat) (l : List Nat) (i : Nat) (s : Chip8) :
    (drawRows x y l i s).stack = s.stack := by
  induction l generalizing i s with
  | nil => rfl
  | cons b rest ih => simp only [drawRows]; exact ih _ _

/-- No instruction ever writes stack slot 0: a successful
`execute_instruction` leaves `stack[0]` unchanged (calls write slot
`sp + 1 ≥ 1`). -/
theorem exec_stack_zero {s t : Chip8} {i : Instruction}
    (h : executeInstruction s i = some t) : t.stack 0 = s.stack 0 := by
  cases i <;> simp only [executeInstruction] at h
  case Sys addr | Call addr =>
    unfold pushSubroutine at h
    split_ifs at h <;>
      first
        | exact Option.noConfusion h
        | (injection h with h3
           subst h3
           show (if (0 : Nat) = s.stack_pointer + 1 then s.program_counter else s.stack 0) = s.stack 0
           rw [if_neg (by omega)])
  case Ret =>
    unfold popSubroutine at h
    split_ifs at h <;>
      first
        | exact Option.noConfusion h
        | (injection h with h3; subst h3; rfl)
  case Drw x y n =>
    unfold drawSprite at h
    cases hrb : readBytes s.memory s.address_register n with
    | none => rw [hrb] at h; exact Option.noConfusion h
    | some l =>
      rw [hrb] at h
      injection h with h3
      subst h3
      rw [drawRows_stack]
  case LdBVx reg =>
    cases hm : ldBVxLoop (s.registers reg) 0 s.address_register s.memory with
    | none => rw [hm] at h; exact Option.noConfusion h
    | some m => rw [hm] at h; injection h with h3; subst h3; rfl
  case LdIVx reg =>
    cases hm : writeRegList s.memory s.address_register
        (((List.finRange 16).take (reg.val + 1)).map s.registers) with
    | none => rw [hm] at h; exact Option.noConfusion h
    | some m => rw [hm] at h; injection h with h3; subst h3; rfl
  case LdVxI reg =>
    cases hm : loadRegList s.memory s.address_register
        ((List.finRange 16).take (reg.val + 1)) s.registers with
    | none => rw [hm] at h; exact Option.noConfusion h
    | some regs => rw [hm] at h; injection h with h3; subst h3; rfl
  case AddIVx reg =>
    split_ifs at h
    injection h with h3; subst h3; rfl
  all_goals
    first
      | (injection h with h3; subst h3; rfl)
      | (split_ifs at h <;>
          first
            | exact Option.noConfusion h
            | (injection h with h3; subst h3; rfl))

/-- Which run outcomes carry a final state whose stack slot 0 must equal the
given value (successful halts and fuel exhaustion; errors and panics carry
no state). -/
def preservesSlotZero : RunResult → Nat → Prop
  | .ok t, v => t.stack 0 = v
  | .fuelOut t, v => t.stack 0 = v
  | _, _ => True

/-- Stack slot 0 is never written by the execute loop. -/
theorem run_slot_zero (fuel : Nat) (s : Chip8) :
    preservesSlotZero (run fuel s) (s.stack 0) := by
  induction fuel generalizing s with
  | zero => simp [run, preservesSlotZero]
  | succ n ih =>
    have key : ∀ X : Chip8, X.stack 0 = s.stack 0 →
        preservesSlotZero (run n X) (s.stack 0) := fun X hX => hX ▸ ih X
    cases hr : readU16 s.memory s.program_counter with
    | none => simp [run, hr, preservesSlotZero]
    | some w =>
      by_cases hw : w = 0
      · subst hw; simp [run, hr, preservesSlotZero]
      · cases hd : decode w with
        | error e => simp [run, hr, hw, hd, preservesSlotZero]
        | ok inst =>
          cases he : executeInstruction { s with program_counter := s.program_counter + 2 } inst with
          | none => simp [run, hr, hw, hd, he, preservesSlotZero]
          | some s2 =>
            have hs2' := exec_stack_zero he
            have hs2 : s2.stack 0 = s.stack 0 := hs2'
            simp only [run, hr, hw, hd, he, if_neg hw]
            apply key
            split_ifs <;> simp [hs2]

/-- **C9.** Call (and legacy Sys) first increments the stack pointer and
stores the current (pre-call, already advanced by 2 in the loop) program
counter at the slot named by the *incremented* pointer, before jumping; at
the loop level, executing a fetched `Call` word makes the next iteration run
from a state whose slot `sp + 1` holds the fetch counter plus 2; from a
state with stack pointer 0 the first call writes slot 1 and leaves slot 0
untouched; slot 0 is never written during any run; and `Ret` reads the slot
at the current stack pointer into the counter and then decrements the
pointer. -/
theorem call_stack_discipline :
    (∀ (addr : Nat) (s : Chip8), s.stack_pointer + 1 < 16 →
      executeInstruction s (.Call addr) = some { s with stack_pointer := s.stack_pointer + 1, stack := fun a => if a = s.stack_pointer + 1 then s.program_counter else s.stack a, program_counter := addr } ∧
      executeInstruction s (.Sys addr) = some { s with stack_pointer := s.stack_pointer + 1, stack := fun a => if a = s.stack_pointer + 1 then s.program_counter else s.stack a, program_counter := addr }) ∧
    (∀ (fuel : Nat) (s : Chip8) (w addr : Nat),
      readU16 s.memory s.program_counter = some w → w ≠ 0 →
      decode w = .ok (.Call addr) → s.stack_pointer + 1 < 16 →
      ∃ t, run (fuel + 1) s = run fuel t ∧
        t.stack (s.stack_pointer + 1) = s.program_counter + 2 ∧
        t.stack_pointer = s.stack_pointer + 1 ∧ t.program_counter = addr) ∧
    (∀ (addr : Nat) (s : Chip8), s.stack_pointer = 0 →
      ∃ t, executeInstruction s (.Call addr) = some t ∧
        t.stack 1 = s.program_counter ∧ t.stack_pointer = 1 ∧ t.stack 0 = s.stack 0) ∧
    (∀ (fuel : Nat) (s : Chip8), preservesSlotZero (run fuel s) (s.stack 0)) ∧
    (∀ s : Chip8, s.stack_pointer < 16 → s.stack_pointer ≠ 0 →
      executeInstruction s .Ret = some { s with program_counter := s.stack s.stack_pointer, stack_pointer := s.stack_pointer - 1 }) := by
  have hpush : ∀ (addr : Nat) (s : Chip8), s.stack_pointer + 1 < 16 →
      pushSubroutine s addr = some { s with stack_pointer := s.stack_pointer + 1, stack := fun a => if a = s.stack_pointer + 1 then s.program_counter else s.stack a, program_counter := addr } := by
    intro addr s hsp
    unfold pushSubroutine
    rw [if_neg (by omega), if_pos hsp]
  refine ⟨fun addr s hsp => ⟨hpush addr s hsp, hpush addr s hsp⟩, ?_, ?_, run_slot_zero, ?_⟩
  · intro fuel s w addr hr hw hd hsp
    have he := hpush addr { s with program_counter := s.program_counter + 2 } (by simpa using hsp)
    simp only [run, hr, hw, hd, if_neg hw, executeInstruction, he, isDrawCall]
    refine ⟨_, rfl, ?_, ?_, ?_⟩ <;> (split_ifs <;> simp)
  · intro addr s hsp
    refine ⟨_, hpush addr s (by omega), ?_, ?_, ?_⟩ <;> simp [hsp]
  · intro s h16 h0
    show popSubroutine s = _
    unfold popSubroutine
    rw [if_pos h16, if_neg h0]

/-- Witness for `call_stack_discipline` at a concrete state: the first call
from the fresh state stores the counter in slot 1. -/
theorem call_stack_discipline_witness :
    ∃ t, executeInstruction blankState (.Call 0x400) = some t ∧
      t.stack 1 = blankState.program_counter ∧ t.stack_pointer = 1 ∧
      t.stack 0 = blankState.stack 0 :=
  call_stack_discipline.2.2.1 0x400 blankState (by decide)

end Chip8Emu
